import Mathlib

/-!
Shallow embedding of the resilient remote-call layer of the repository:
the generic retry executor (`UtilService.retryOnException`) and the HTTP
client wrapper (`HttpsService.setupInstance` / `request` /
`transformParams`).

JavaScript-specific behaviour is modelled explicitly:
* objects `Record<string, T>` become insertion-ordered association lists
  with unique keys (`objSet` replaces in place, spread `{...a, ...b}` is
  `objMerge`);
* truthiness tests (`if (params.retries)`, `x || y`) are modelled by
  dedicated `js...` helpers (0, "" and undefined are falsy);
* `str.replace(new RegExp(str2, "g"), repl)` on a literal pattern is
  `jsReplaceAll`;
* `encodeURIComponent` is modelled byte-precisely over UTF-8;
* asynchrony: the outcome of the `Promise.race` between the transport
  call and the timer is an explicit `TransportOutcome` input, and real
  elapsed time in the retry loop is an explicit `elapsedAt` input.
-/

namespace NestjsServerless

/-- JS objects `Record<string, α>`: insertion-ordered association lists
with unique keys. -/
abbrev Obj (α : Type) := List (String × α)

/-- Property read `m[k]`. -/
def objGet {α : Type} (m : Obj α) (k : String) : Option α :=
  (m.find? (fun p => p.1 == k)).map (·.2)

/-- Property write `m[k] = v`: replaces the binding in place if the key
exists, appends otherwise (JS key-insertion order; keys are unique). -/
def objSet {α : Type} (m : Obj α) (k : String) (v : α) : Obj α :=
  match m with
  | [] => [(k, v)]
  | q :: rest => if q.1 == k then (k, v) :: rest else q :: objSet rest k v

/-- Object spread `{ ...a, ...b }`: all of `a`, then `b`'s entries
written over it, `b` winning on key collision. -/
def objMerge {α : Type} (a b : Obj α) : Obj α :=
  b.foldl (fun acc p => objSet acc p.1 p.2) a

/-- JS truthiness of an optional number (`undefined` and `0` are falsy). -/
def jsNumTruthy (o : Option Nat) : Bool :=
  match o with
  | none => false
  | some n => n != 0

/-- JS `a || b` for an optional number against a number default. -/
def jsOrNat (o : Option Nat) (d : Nat) : Nat :=
  if jsNumTruthy o then o.getD d else d

/-- JS truthiness of an optional string (`undefined` and `""` are falsy). -/
def jsStrTruthy (o : Option String) : Bool :=
  match o with
  | none => false
  | some s => s != ""

/-- Optional-chaining call `f?.(e)` used as a condition: `undefined` is
falsy. -/
def jsCallOpt {E : Type} (f : Option (E → Bool)) (e : E) : Bool :=
  match f with
  | none => false
  | some g => g e

/-- Contiguous-substring test on character lists. -/
def listContainsSeq (pat : List Char) : List Char → Bool
  | [] => pat.isEmpty
  | c :: rest => pat.isPrefixOf (c :: rest) || listContainsSeq pat rest

/-- JS `String.prototype.includes`. -/
def jsIncludes (s sub : String) : Bool :=
  listContainsSeq sub.data s.data

/-- JS `str.replace(new RegExp(pat, "g"), repl)` for a pattern with no
regex metacharacters: replace every non-overlapping occurrence of `pat`,
scanning left to right, without rescanning the replacement text. -/
def replaceAllCharsAux (pat repl : List Char) : Nat → List Char → List Char
  | 0, s => s
  | fuel + 1, s =>
    match s with
    | [] => []
    | c :: rest =>
      if pat ≠ [] ∧ pat.isPrefixOf (c :: rest) then
        repl ++ replaceAllCharsAux pat repl fuel ((c :: rest).drop pat.length)
      else
        c :: replaceAllCharsAux pat repl fuel rest

/-- Each recursive step of `replaceAllCharsAux` consumes at least one
character, so `s.length` steps always complete the scan. -/
def replaceAllChars (s pat repl : List Char) : List Char :=
  replaceAllCharsAux pat repl s.length s

/-- String version of `replaceAllChars`. -/
def jsReplaceAll (s pat repl : String) : String :=
  ⟨replaceAllChars s.data pat.data repl.data⟩

/-- UTF-8 byte sequence of a Unicode code point. -/
def utf8Bytes (n : Nat) : List Nat :=
  if n < 0x80 then [n]
  else if n < 0x800 then
    [0xC0 + n / 64, 0x80 + n % 64]
  else if n < 0x10000 then
    [0xE0 + n / 4096, 0x80 + n / 64 % 64, 0x80 + n % 64]
  else
    [0xF0 + n / 262144, 0x80 + n / 4096 % 64, 0x80 + n / 64 % 64,
      0x80 + n % 64]

/-- Upper-case hexadecimal digit. -/
def hexDigitUpper (n : Nat) : Char :=
  if n < 10 then Char.ofNat (48 + n) else Char.ofNat (65 + n - 10)

/-- Percent-encoding `%XX` of one byte. -/
def pctEncodeByte (b : Nat) : List Char :=
  ['%', hexDigitUpper (b / 16), hexDigitUpper (b % 16)]

/-- The characters `encodeURIComponent` leaves unescaped:
`A-Z a-z 0-9 - _ . ! ~ * ' ( )`. -/
def isUriUnreserved (c : Char) : Bool :=
  c.isAlphanum ||
    c == '-' || c == '_' || c == '.' || c == '!' || c == '~' ||
    c == '*' || c == '\'' || c == '(' || c == ')'

/-- JS `encodeURIComponent`: unreserved characters pass through, every
other character is percent-encoded per UTF-8 byte. -/
def encodeURIComponent (s : String) : String :=
  ⟨(s.data.map (fun c =>
      if isUriUnreserved c then [c]
      else ((utf8Bytes c.toNat).map pctEncodeByte).flatten)).flatten⟩

/-- `qs.stringify` on a flat string-valued map: `k=v` pairs joined by
`&`, keys and values percent-encoded. -/
def qsStringify (m : Obj String) : String :=
  String.intercalate "&"
    (m.map (fun p => encodeURIComponent p.1 ++ "=" ++ encodeURIComponent p.2))

/- ## Retry executor — `UtilService.retryOnException`
   (src/source/core/util/util.service.ts, lines 61-95) -/

/-- `UtilRetryParams`: optional fields model the TS optional properties;
`none` is `undefined`. -/
structure UtilRetryParams (E : Type) where
  name : Option String := none
  retries : Option Nat := none
  timeout : Option Nat := none
  delay : Option Nat := none
  breakIf : Option (E → Bool) := none

/-- Terminal outcome of the retry loop: the produced value or the
re-raised error, together with the total number of invocations of the
wrapped operation. -/
inductive RetryResult (E T : Type) where
  | ok (value : T) (calls : Nat)
  | err (e : E) (calls : Nat)
  deriving Repr, DecidableEq

/-- The `while (true)` loop of `retryOnException`.  The wrapped
operation is `method : Nat → Except E T` (result of its n-th
invocation, 1-indexed), `elapsedAt n` is the wall-clock time in ms
observed in the `catch` block of the n-th attempt, `tentative` is the
loop counter (starts at 1), and `fuel` bounds the modelled unrolling:
`none` means the loop has not terminated within `fuel` iterations.

Branch structure translated from the source:
```
if (params.retries && tentative > params.retries) throw e;
else if (params.timeout && elapsed > params.timeout) throw e;
else if (params.breakIf?.(e)) throw e;
tentative++;
```
-/
def retryOnException {E T : Type} (p : UtilRetryParams E)
    (method : Nat → Except E T) (elapsedAt : Nat → Nat) :
    Nat → Nat → Option (RetryResult E T)
  | 0, _ => none
  | fuel + 1, tentative =>
    match method tentative with
    | .ok r => some (.ok r tentative)
    | .error e =>
      let elapsed := elapsedAt tentative
      if jsNumTruthy p.retries && decide (tentative > p.retries.getD 0) then
        some (.err e tentative)
      else if jsNumTruthy p.timeout && decide (elapsed > p.timeout.getD 0) then
        some (.err e tentative)
      else if jsCallOpt p.breakIf e then
        some (.err e tentative)
      else
        retryOnException p method elapsedAt fuel (tentative + 1)

/-- The stop-and-re-raise condition of the retry loop, as one Boolean. -/
def retryStopCond {E : Type} (p : UtilRetryParams E) (tentative elapsed : Nat)
    (e : E) : Bool :=
  (jsNumTruthy p.retries && decide (tentative > p.retries.getD 0)) ||
  (jsNumTruthy p.timeout && decide (elapsed > p.timeout.getD 0)) ||
  jsCallOpt p.breakIf e

/- ## HTTP client — `HttpsService`
   (src: https.service.ts as provided) -/

/-- `HttpsReturnType` enum. -/
inductive HttpsReturnType where
  | DATA
  | FULL
  deriving Repr, DecidableEq

/-- The dynamically-typed `data` field: a JS object before form
stringification, a string after it. -/
inductive JsData where
  | obj (m : Obj String)
  | str (s : String)
  deriving Repr, DecidableEq

/-- JS object view of a `data` value as used by spread: spreading a
string yields index-keyed single-character entries. -/
def jsDataToObj : JsData → Obj String
  | .obj m => m
  | .str s => s.data.enum.map (fun p => (toString p.1, String.mk [p.2]))

/-- JS truthiness of the optional `data` field (objects are always
truthy, a string is truthy iff nonempty). -/
def jsDataTruthy (o : Option JsData) : Bool :=
  match o with
  | none => false
  | some (.obj _) => true
  | some (.str s) => s != ""

/-- `HttpsServiceOptions` (https.interface.ts), restricted to the fields
the service reads.  `none` models an absent property. -/
structure HttpsServiceOptions where
  defaultValidator : Option (Nat → Bool) := none
  defaultReturnType : Option HttpsReturnType := none
  defaultTimeout : Option Nat := none
  baseUrl : Option String := none
  baseData : Option (Obj String) := none
  baseHeaders : Option (Obj String) := none
  randomizeUserAgent : Bool := false
  ignoreHttpsErrors : Bool := false

/-- The private state `setupInstance` stores on the service: default
validator/return type, bases, and the axios instance default timeout. -/
structure HttpsState where
  defaultValidator : Nat → Bool
  defaultReturnType : HttpsReturnType
  baseUrl : Option String
  baseData : Option (Obj String)
  baseHeaders : Obj String
  instanceTimeout : Nat

/-- `HttpsService.setupInstance`.  The random user-agent string produced
by `new UserAgent().toString()` is an explicit input `generatedUA`
(drawn once, at setup time), and `settingsTimeout` is
`settings.HTTPS_DEFAULT_TIMEOUT` from the settings provider. -/
def setupInstance (generatedUA : String) (settingsTimeout : Nat)
    (params : HttpsServiceOptions) : HttpsState :=
  let headers0 := params.baseHeaders.getD []
  let headers1 :=
    if params.randomizeUserAgent then
      objSet headers0 "user-agent" generatedUA
    else headers0
  { defaultReturnType := params.defaultReturnType.getD HttpsReturnType.DATA
    baseUrl := params.baseUrl
    baseData := params.baseData
    defaultValidator :=
      match params.defaultValidator with
      | some f => f
      | none => fun s => decide (s < 400)
    baseHeaders := headers1
    instanceTimeout := jsOrNat params.defaultTimeout settingsTimeout }

/-- `HttpsRequestParams`: the per-call request descriptor.  `none`
models an absent property; `params` is the query-string map. -/
structure HttpsRequestParams where
  method : Option String := none
  url : String := ""
  headers : Option (Obj String) := none
  data : Option JsData := none
  form : Option (Obj String) := none
  params : Option (Obj String) := none
  replacements : Option (List (String × String)) := none
  timeout : Option Nat := none
  validateStatus : Option (Nat → Bool) := none
  returnType : Option HttpsReturnType := none

/-- First block of `transformParams`: `if (!params.headers)
params.headers = { }`. -/
def ensureHeaders (p : HttpsRequestParams) : HttpsRequestParams :=
  if p.headers.isSome then p else { p with headers := some [] }

/-- Second block of `transformParams`: join url, data and headers with
their respective base. -/
def mergeBases (st : HttpsState) (p : HttpsRequestParams) :
    HttpsRequestParams :=
  let p :=
    if jsStrTruthy st.baseUrl then
      { p with url := st.baseUrl.getD "" ++ p.url }
    else p
  let p := { p with headers := some (objMerge st.baseHeaders (p.headers.getD [])) }
  match st.baseData with
  | none => p
  | some base =>
    let p :=
      if jsDataTruthy p.data then
        { p with data := some (.obj (objMerge base (jsDataToObj ((p.data).getD (.obj []))))) }
      else p
    let p :=
      match p.form with
      | some f => { p with form := some (objMerge base f) }
      | none => p
    match p.params with
    | some q => { p with params := some (objMerge base q) }
    | none => p

/-- Third block of `transformParams`: stringify forms and force the
form content-type header. -/
def applyFormEncoding (p : HttpsRequestParams) : HttpsRequestParams :=
  match p.form with
  | some f =>
    { p with
        headers := some (objSet (p.headers.getD []) "content-type"
          "application/x-www-form-urlencoded")
        data := some (.str (qsStringify f)) }
  | none => p

/-- Fourth block of `transformParams`: apply URL replacements, in key
insertion order, each `:<key>` replaced globally by the percent-encoded
value. -/
def applyReplacements (p : HttpsRequestParams) : HttpsRequestParams :=
  match p.replacements with
  | some reps =>
    { p with
        url := reps.foldl
          (fun u kv => jsReplaceAll u (":" ++ kv.1) (encodeURIComponent kv.2))
          p.url }
  | none => p

/-- `HttpsService.transformParams`: the four source blocks in order. -/
def transformParams (st : HttpsState) (p : HttpsRequestParams) :
    HttpsRequestParams :=
  applyReplacements (applyFormEncoding (mergeBases st (ensureHeaders p)))

/-- Outcome of `Promise.race([this.instance(params), this.wait(params.timeout)])`:
the timer won, the transport resolved with a response, or the transport
rejected with an exception message. -/
inductive TransportOutcome where
  | timedOut
  | response (status : Nat) (headers : Obj String) (body : JsData)
  | exception (message : String)

/-- The error payload `request` throws inside
`InternalServerErrorException`: message, the raw params snapshot under
`config`, and the response status/headers/data when available. -/
structure HttpsErrorPayload where
  message : String
  config : HttpsRequestParams
  status : Option Nat
  headers : Option (Obj String)
  data : Option JsData

/-- Failures of `request`: the not-configured guard, or a normalized
error payload. -/
inductive HttpsError where
  | notConfigured (msg : String)
  | normalized (payload : HttpsErrorPayload)

/-- Successful result of `request`: the body alone (DATA) or the full
response envelope (FULL). -/
inductive HttpsResult where
  | dataOnly (body : JsData)
  | full (status : Nat) (headers : Obj String) (body : JsData)

/-- `params.timeout = params.timeout || this.instance.defaults.timeout`
followed by `const rawParams = Object.assign({ }, params)`: the raw
snapshot taken before `transformParams` runs. -/
def rawOf (st : HttpsState) (p : HttpsRequestParams) : HttpsRequestParams :=
  { p with timeout := some (jsOrNat p.timeout st.instanceTimeout) }

/-- `${rawParams.method} ${rawParams.url}` (an undefined method prints
as the string `undefined`). -/
def methodUrlOf (p : HttpsRequestParams) : String :=
  p.method.getD "undefined" ++ " " ++ p.url

/-- `HttpsService.request`.  The service state is `none` before
`setupInstance` ran; the race outcome is the explicit `outcome` input. -/
def request (svc : Option HttpsState) (p0 : HttpsRequestParams)
    (outcome : TransportOutcome) : Except HttpsError HttpsResult :=
  match svc with
  | none =>
    .error (.notConfigured
      "https service must be configured with this.setupInstance()")
  | some st =>
    let rawParams := rawOf st p0
    let p := transformParams st rawParams
    match outcome with
    | .timedOut =>
      .error (.normalized
        { message := "Request timeout" ++ ": " ++ methodUrlOf rawParams
          config := rawParams
          status := none, headers := none, data := none })
    | .exception msg =>
      let errPfx :=
        if jsIncludes msg "timeout" then "Request timeout"
        else "Request exception"
      .error (.normalized
        { message := errPfx ++ ": " ++ methodUrlOf rawParams
          config := rawParams
          status := none, headers := none, data := none })
    | .response s h b =>
      let validator :=
        match p.validateStatus with
        | some f => f
        | none => st.defaultValidator
      if !validator s then
        .error (.normalized
          { message := "Request failed" ++ ": " ++ methodUrlOf rawParams
            config := rawParams
            status := some s, headers := some h, data := some b })
      else
        match p.returnType.getD st.defaultReturnType with
        | .DATA => .ok (.dataOnly b)
        | .FULL => .ok (.full s h b)

/-- Verb shorthand `get`: sets method and url, delegates to `request`. -/
def getVerb (svc : Option HttpsState) (url : String)
    (p : HttpsRequestParams) (outcome : TransportOutcome) :
    Except HttpsError HttpsResult :=
  request svc { p with method := some "GET", url := url } outcome

/-- Verb shorthand `post`. -/
def postVerb (svc : Option HttpsState) (url : String)
    (p : HttpsRequestParams) (outcome : TransportOutcome) :
    Except HttpsError HttpsResult :=
  request svc { p with method := some "POST", url := url } outcome

/-- Verb shorthand `put`. -/
def putVerb (svc : Option HttpsState) (url : String)
    (p : HttpsRequestParams) (outcome : TransportOutcome) :
    Except HttpsError HttpsResult :=
  request svc { p with method := some "PUT", url := url } outcome

/-- Verb shorthand `delete`. -/
def deleteVerb (svc : Option HttpsState) (url : String)
    (p : HttpsRequestParams) (outcome : TransportOutcome) :
    Except HttpsError HttpsResult :=
  request svc { p with method := some "DELETE", url := url } outcome

/-- Projection of a `request` failure onto its normalized payload. -/
def errorPayloadOf : Except HttpsError HttpsResult → Option HttpsErrorPayload
  | .error (.normalized pay) => some pay
  | _ => none

/-- Concrete instance state used to exercise the error snapshot: base
URL `https://api.test`, default timeout 5000. -/
def stC2 : HttpsState :=
  setupInstance "UA" 5000 { baseUrl := some "https://api.test" }

/-- Concrete descriptor used to exercise the error snapshot. -/
def pC2 : HttpsRequestParams := { url := "/users", method := some "GET" }

/-- The payload `request` produces for `stC2`/`pC2` on a 500 response. -/
def payC2 : HttpsErrorPayload :=
  { message := "Request failed" ++ ": " ++ methodUrlOf (rawOf stC2 pC2)
    config := rawOf stC2 pC2
    status := some 500, headers := some [], data := some (.obj []) }

/- ## Supporting lemmas: JS object semantics -/

theorem objGet_cons {α : Type} (q : String × α) (m : Obj α) (k : String) :
    objGet (q :: m) k = if q.1 == k then some q.2 else objGet m k := by
  simp only [objGet, List.find?]
  cases h : q.1 == k <;> simp [h]

theorem objGet_eq_none_of_all_ne {α : Type} {m : Obj α} {k : String}
    (h : ∀ q ∈ m, (q.1 == k) = false) : objGet m k = none := by
  induction m with
  | nil => rfl
  | cons q m ih =>
    rw [objGet_cons, if_neg]
    · exact ih (fun q' hq' => h q' (List.mem_cons_of_mem _ hq'))
    · simp [h q (List.mem_cons_self _ _)]

theorem objGet_objSet_self {α : Type} (m : Obj α) (k : String) (v : α) :
    objGet (objSet m k v) k = some v := by
  induction m with
  | nil => simp [objSet, objGet_cons]
  | cons q m ih =>
    rw [objSet]
    cases h : q.1 == k with
    | false => simp [objGet_cons, h, ih]
    | true => simp [objGet_cons]

theorem objGet_objSet_ne {α : Type} (m : Obj α) (k k' : String) (v : α)
    (hne : (k == k') = false) : objGet (objSet m k v) k' = objGet m k' := by
  induction m with
  | nil => simp [objSet, objGet_cons, objGet, hne]
  | cons q m ih =>
    rw [objSet]
    cases h : q.1 == k with
    | false => simp [objGet_cons, ih]
    | true =>
      have hqk : q.1 = k := by simpa using h
      simp [objGet_cons, hne, hqk]

theorem objGet_objMerge_of_none {α : Type} (a b : Obj α) (k : String)
    (h : objGet b k = none) : objGet (objMerge a b) k = objGet a k := by
  induction b generalizing a with
  | nil => rfl
  | cons q b ih =>
    rw [objGet_cons] at h
    cases hq : q.1 == k with
    | false =>
      rw [hq] at h
      simp only [Bool.false_eq_true, if_false] at h
      show objGet (objMerge (objSet a q.1 q.2) b) k = objGet a k
      rw [ih _ h, objGet_objSet_ne _ _ _ _ (by simpa using hq)]
    | true => rw [hq] at h; simp at h

theorem objGet_objMerge_of_some {α : Type} (a b : Obj α) (k : String) (v : α)
    (hnd : (b.map Prod.fst).Nodup) (h : objGet b k = some v) :
    objGet (objMerge a b) k = some v := by
  induction b generalizing a with
  | nil => simp [objGet] at h
  | cons q b ih =>
    rw [List.map_cons, List.nodup_cons] at hnd
    rw [objGet_cons] at h
    cases hq : q.1 == k with
    | false =>
      rw [hq] at h
      simp only [Bool.false_eq_true, if_false] at h
      exact ih _ hnd.2 h
    | true =>
      have hqk : q.1 = k := by simpa using hq
      rw [hq] at h
      simp only [if_true, eq_self_iff_true, Option.some.injEq] at h
      subst h
      show objGet (objMerge (objSet a q.1 q.2) b) k = some q.2
      have hb : objGet b k = none := by
        apply objGet_eq_none_of_all_ne
        intro q' hq'
        have hne : q'.1 ≠ q.1 := by
          intro heq
          exact hnd.1 (heq ▸ List.mem_map_of_mem Prod.fst hq')
        simp [hqk ▸ hne]
      rw [objGet_objMerge_of_none _ _ _ hb, hqk, objGet_objSet_self]

/- ## Supporting lemmas: global string replacement -/

theorem replaceAllCharsAux_eq_of_not_contains (pat repl : List Char) :
    ∀ (fuel : Nat) (s : List Char), listContainsSeq pat s = false →
      replaceAllCharsAux pat repl fuel s = s := by
  intro fuel
  induction fuel with
  | zero => intro s _; rfl
  | succ fuel ih =>
    intro s h
    cases s with
    | nil => rfl
    | cons c rest =>
      have h' : pat.isPrefixOf (c :: rest) = false ∧
          listContainsSeq pat rest = false := by
        simpa [listContainsSeq] using h
      rw [replaceAllCharsAux, if_neg, ih rest h'.2]
      rintro ⟨-, hpre⟩
      rw [h'.1] at hpre
      cases hpre

theorem replaceAllChars_eq_of_not_contains (pat repl : List Char)
    (s : List Char) (h : listContainsSeq pat s = false) :
    replaceAllChars s pat repl = s :=
  replaceAllCharsAux_eq_of_not_contains pat repl s.length s h

theorem jsReplaceAll_eq_of_not_includes (u pat repl : String)
    (h : jsIncludes u pat = false) :
    jsReplaceAll u pat repl = u := by
  unfold jsIncludes at h
  unfold jsReplaceAll
  rw [replaceAllChars_eq_of_not_contains _ _ _ h]

/- ## Supporting lemmas: `transformParams` stages -/

theorem ensureHeaders_fields (p : HttpsRequestParams) :
    (ensureHeaders p).url = p.url ∧
    (ensureHeaders p).headers = some (p.headers.getD []) ∧
    (ensureHeaders p).data = p.data ∧
    (ensureHeaders p).form = p.form ∧
    (ensureHeaders p).params = p.params ∧
    (ensureHeaders p).replacements = p.replacements ∧
    (ensureHeaders p).validateStatus = p.validateStatus ∧
    (ensureHeaders p).returnType = p.returnType := by
  unfold ensureHeaders
  cases h : p.headers <;> simp [h]

theorem mergeBases_url (st : HttpsState) (p : HttpsRequestParams) :
    (mergeBases st p).url =
      if jsStrTruthy st.baseUrl then st.baseUrl.getD "" ++ p.url
      else p.url := by
  unfold mergeBases
  cases hbd : st.baseData <;> cases hu : jsStrTruthy st.baseUrl <;>
    cases hd : jsDataTruthy p.data <;> cases hf : p.form <;>
    cases hq : p.params <;> simp [hbd, hu, hd, hf, hq]

theorem mergeBases_headers (st : HttpsState) (p : HttpsRequestParams) :
    (mergeBases st p).headers =
      some (objMerge st.baseHeaders (p.headers.getD [])) := by
  unfold mergeBases
  cases hbd : st.baseData <;> cases hu : jsStrTruthy st.baseUrl <;>
    cases hd : jsDataTruthy p.data <;> cases hf : p.form <;>
    cases hq : p.params <;> simp [hbd, hu, hd, hf, hq]

theorem mergeBases_stable (st : HttpsState) (p : HttpsRequestParams) :
    (mergeBases st p).replacements = p.replacements ∧
    (mergeBases st p).validateStatus = p.validateStatus ∧
    (mergeBases st p).returnType = p.returnType ∧
    (mergeBases st p).method = p.method ∧
    (mergeBases st p).timeout = p.timeout := by
  unfold mergeBases
  cases hbd : st.baseData <;> cases hu : jsStrTruthy st.baseUrl <;>
    cases hd : jsDataTruthy p.data <;> cases hf : p.form <;>
    cases hq : p.params <;> simp [hbd, hu, hd, hf, hq]

theorem mergeBases_form (st : HttpsState) (p : HttpsRequestParams) :
    (mergeBases st p).form =
      match st.baseData, p.form with
      | some base, some f => some (objMerge base f)
      | _, f => f := by
  unfold mergeBases
  cases hbd : st.baseData <;> cases hu : jsStrTruthy st.baseUrl <;>
    cases hd : jsDataTruthy p.data <;> cases hf : p.form <;>
    cases hq : p.params <;> simp [hbd, hu, hd, hf, hq]

theorem mergeBases_data (st : HttpsState) (p : HttpsRequestParams) :
    (mergeBases st p).data =
      match st.baseData, jsDataTruthy p.data with
      | some base, true =>
          some (.obj (objMerge base (jsDataToObj (p.data.getD (.obj [])))))
      | _, _ => p.data := by
  unfold mergeBases
  cases hbd : st.baseData <;> cases hu : jsStrTruthy st.baseUrl <;>
    cases hd : jsDataTruthy p.data <;> cases hf : p.form <;>
    cases hq : p.params <;> simp [hbd, hu, hd, hf, hq]

theorem mergeBases_query (st : HttpsState) (p : HttpsRequestParams) :
    (mergeBases st p).params =
      match st.baseData, p.params with
      | some base, some q => some (objMerge base q)
      | _, q => q := by
  unfold mergeBases
  cases hbd : st.baseData <;> cases hu : jsStrTruthy st.baseUrl <;>
    cases hd : jsDataTruthy p.data <;> cases hf : p.form <;>
    cases hq : p.params <;> simp [hbd, hu, hd, hf, hq]

theorem applyFormEncoding_fields (p : HttpsRequestParams) :
    (applyFormEncoding p).url = p.url ∧
    (applyFormEncoding p).replacements = p.replacements ∧
    (applyFormEncoding p).form = p.form ∧
    (applyFormEncoding p).params = p.params ∧
    (applyFormEncoding p).validateStatus = p.validateStatus ∧
    (applyFormEncoding p).returnType = p.returnType := by
  unfold applyFormEncoding
  cases h : p.form <;> simp [h]

theorem applyFormEncoding_headers (p : HttpsRequestParams) :
    (applyFormEncoding p).headers =
      match p.form with
      | some _ => some (objSet (p.headers.getD []) "content-type"
          "application/x-www-form-urlencoded")
      | none => p.headers := by
  unfold applyFormEncoding
  cases h : p.form <;> simp [h]

theorem applyFormEncoding_data (p : HttpsRequestParams) :
    (applyFormEncoding p).data =
      match p.form with
      | some f => some (.str (qsStringify f))
      | none => p.data := by
  unfold applyFormEncoding
  cases h : p.form <;> simp [h]

theorem applyReplacements_url (p : HttpsRequestParams) :
    (applyReplacements p).url =
      match p.replacements with
      | some reps => reps.foldl
          (fun u kv => jsReplaceAll u (":" ++ kv.1) (encodeURIComponent kv.2))
          p.url
      | none => p.url := by
  unfold applyReplacements
  cases h : p.replacements <;> simp [h]

theorem applyReplacements_fields (p : HttpsRequestParams) :
    (applyReplacements p).headers = p.headers ∧
    (applyReplacements p).data = p.data ∧
    (applyReplacements p).form = p.form ∧
    (applyReplacements p).params = p.params ∧
    (applyReplacements p).validateStatus = p.validateStatus ∧
    (applyReplacements p).returnType = p.returnType := by
  unfold applyReplacements
  cases h : p.replacements <;> simp [h]

theorem transformParams_validateStatus (st : HttpsState)
    (p : HttpsRequestParams) :
    (transformParams st p).validateStatus = p.validateStatus := by
  unfold transformParams
  rw [(applyReplacements_fields _).2.2.2.2.1,
    (applyFormEncoding_fields _).2.2.2.2.1,
    (mergeBases_stable _ _).2.1,
    (ensureHeaders_fields _).2.2.2.2.2.2.1]

theorem transformParams_returnType (st : HttpsState)
    (p : HttpsRequestParams) :
    (transformParams st p).returnType = p.returnType := by
  unfold transformParams
  rw [(applyReplacements_fields _).2.2.2.2.2,
    (applyFormEncoding_fields _).2.2.2.2.2,
    (mergeBases_stable _ _).2.2.1,
    (ensureHeaders_fields _).2.2.2.2.2.2.2]

/- ## Supporting lemmas: retry loop -/

theorem retryOnException_succ {E T : Type} (p : UtilRetryParams E)
    (method : Nat → Except E T) (elapsedAt : Nat → Nat)
    (fuel tentative : Nat) :
    retryOnException p method elapsedAt (fuel + 1) tentative =
      match method tentative with
      | .ok r => some (.ok r tentative)
      | .error e =>
        if retryStopCond p tentative (elapsedAt tentative) e then
          some (.err e tentative)
        else retryOnException p method elapsedAt fuel (tentative + 1) := by
  rw [retryOnException]
  cases method tentative with
  | ok r => rfl
  | error e =>
    unfold retryStopCond
    cases h1 : jsNumTruthy p.retries && decide (tentative > p.retries.getD 0) <;>
      cases h2 : jsNumTruthy p.timeout &&
        decide (elapsedAt tentative > p.timeout.getD 0) <;>
      cases h3 : jsCallOpt p.breakIf e <;> simp [h1, h2, h3]

/- ## Claims -/

/-- C1: with `retries = 3` and an operation failing on every invocation,
`retryOnException` invokes the operation exactly 4 times (1 initial + 3
retries) and re-raises the error of the 4th (last) attempt unchanged;
and in general, on a failing attempt the loop stops and re-raises that
error exactly when `retries` is set (truthy) and the attempt count
exceeds it, or `timeout` is set and the elapsed time exceeds it, or
`breakIf(error)` returns true, and otherwise it retries. -/
theorem claim_C1_retry_bound_and_stop :
    (∀ (E T : Type) (errs : Nat → E) (elapsedAt : Nat → Nat) (fuel : Nat),
      4 ≤ fuel →
      retryOnException (E := E) (T := T) { retries := some 3 }
        (fun n => .error (errs n)) elapsedAt fuel 1 =
        some (.err (errs 4) 4)) ∧
    (∀ (E T : Type) (p : UtilRetryParams E) (method : Nat → Except E T)
        (elapsedAt : Nat → Nat) (fuel tentative : Nat) (e : E),
      method tentative = .error e →
      retryOnException p method elapsedAt (fuel + 1) tentative =
        if (jsNumTruthy p.retries = true ∧ tentative > p.retries.getD 0) ∨
           (jsNumTruthy p.timeout = true ∧
             elapsedAt tentative > p.timeout.getD 0) ∨
           jsCallOpt p.breakIf e = true then
          some (.err e tentative)
        else retryOnException p method elapsedAt fuel (tentative + 1)) := by
  constructor
  · intro E T errs elapsedAt fuel h
    obtain ⟨k, rfl⟩ := Nat.exists_eq_add_of_le h
    rw [Nat.add_comm]
    have s1 : retryOnException (E := E) (T := T) { retries := some 3 }
        (fun n => .error (errs n)) elapsedAt (k + 4) 1 =
        retryOnException { retries := some 3 }
          (fun n => .error (errs n)) elapsedAt (k + 3) 2 := by
      rw [show k + 4 = (k + 3) + 1 from rfl, retryOnException_succ]
      simp [retryStopCond, jsNumTruthy, jsCallOpt]
    have s2 : retryOnException (E := E) (T := T) { retries := some 3 }
        (fun n => .error (errs n)) elapsedAt (k + 3) 2 =
        retryOnException { retries := some 3 }
          (fun n => .error (errs n)) elapsedAt (k + 2) 3 := by
      rw [show k + 3 = (k + 2) + 1 from rfl, retryOnException_succ]
      simp [retryStopCond, jsNumTruthy, jsCallOpt]
    have s3 : retryOnException (E := E) (T := T) { retries := some 3 }
        (fun n => .error (errs n)) elapsedAt (k + 2) 3 =
        retryOnException { retries := some 3 }
          (fun n => .error (errs n)) elapsedAt (k + 1) 4 := by
      rw [show k + 2 = (k + 1) + 1 from rfl, retryOnException_succ]
      simp [retryStopCond, jsNumTruthy, jsCallOpt]
    have s4 : retryOnException (E := E) (T := T) { retries := some 3 }
        (fun n => .error (errs n)) elapsedAt (k + 1) 4 =
        some (.err (errs 4) 4) := by
      rw [retryOnException_succ]
      simp [retryStopCond, jsNumTruthy, jsCallOpt]
    rw [s1, s2, s3, s4]
  · intro E T p method elapsedAt fuel tentative e hm
    rw [retryOnException_succ, hm]
    simp only [retryStopCond, Bool.or_eq_true, Bool.and_eq_true,
      decide_eq_true_eq, or_assoc]

/-- C10: the retry and time-budget bounds are tested by JS truthiness:
a policy with `retries = 0` (resp. `timeout = 0`) behaves exactly like
one with that bound unset, and with `retries = 0` and no other bound an
always-failing operation is retried without bound (the loop never
terminates), rather than failing after the first attempt. -/
theorem claim_C10_zero_bound_is_unset :
    (∀ (E T : Type) (p : UtilRetryParams E) (method : Nat → Except E T)
        (elapsedAt : Nat → Nat) (fuel tentative : Nat),
      retryOnException { p with retries := some 0 } method elapsedAt
          fuel tentative =
        retryOnException { p with retries := none } method elapsedAt
          fuel tentative) ∧
    (∀ (E T : Type) (p : UtilRetryParams E) (method : Nat → Except E T)
        (elapsedAt : Nat → Nat) (fuel tentative : Nat),
      retryOnException { p with timeout := some 0 } method elapsedAt
          fuel tentative =
        retryOnException { p with timeout := none } method elapsedAt
          fuel tentative) ∧
    (∀ (E T : Type) (errs : Nat → E) (elapsedAt : Nat → Nat)
        (fuel tentative : Nat),
      retryOnException (E := E) (T := T) { retries := some 0 }
        (fun n => .error (errs n)) elapsedAt fuel tentative = none) := by
  refine ⟨?_, ?_, ?_⟩
  · intro E T p method elapsedAt fuel
    induction fuel with
    | zero => intro tentative; rfl
    | succ fuel ih =>
      intro tentative
      rw [retryOnException_succ, retryOnException_succ]
      cases method tentative with
      | ok r => rfl
      | error e =>
        simp only [retryStopCond, jsNumTruthy, ih]
        simp
  · intro E T p method elapsedAt fuel
    induction fuel with
    | zero => intro tentative; rfl
    | succ fuel ih =>
      intro tentative
      rw [retryOnException_succ, retryOnException_succ]
      cases method tentative with
      | ok r => rfl
      | error e =>
        simp only [retryStopCond, jsNumTruthy, ih]
        simp
  · intro E T errs elapsedAt fuel
    induction fuel with
    | zero => intro tentative; rfl
    | succ fuel ih =>
      intro tentative
      rw [retryOnException_succ]
      simp [retryStopCond, jsNumTruthy, jsCallOpt, ih]

/-- C1 witness: at `retries = 3`, errors `fun n => n`, fuel 4, the
operation runs exactly 4 times and the 4th error (the number 4) is
re-raised; and one step of the loop at `retries = 1`, attempt 2,
stops and re-raises. -/
theorem claim_C1_retry_bound_and_stop_witness :
    retryOnException (E := Nat) (T := Unit) { retries := some 3 }
      (fun n => .error n) (fun _ => 0) 4 1 = some (.err 4 4) ∧
    retryOnException (E := Nat) (T := Unit) { retries := some 1 }
      (fun n => .error n) (fun _ => 0) 1 2 = some (.err 2 2) := by
  constructor
  · exact claim_C1_retry_bound_and_stop.1 Nat Unit (fun n => n)
      (fun _ => 0) 4 (by decide)
  · have h := claim_C1_retry_bound_and_stop.2 Nat Unit { retries := some 1 }
      (fun n => .error n) (fun _ => 0) 0 2 2 rfl
    simpa [jsNumTruthy, jsCallOpt] using h

/-- C8: calling `request` (or any of the get/post/put/delete
shorthands) on an instance on which `setupInstance` has not run fails
with the not-configured error, for every descriptor and every transport
outcome — so no composition or transport result is consulted and no
default configuration is substituted. -/
theorem claim_C8_not_configured :
    ∀ (p : HttpsRequestParams) (o : TransportOutcome) (url : String),
      request none p o = .error (.notConfigured
        "https service must be configured with this.setupInstance()") ∧
      getVerb none url p o = .error (.notConfigured
        "https service must be configured with this.setupInstance()") ∧
      postVerb none url p o = .error (.notConfigured
        "https service must be configured with this.setupInstance()") ∧
      putVerb none url p o = .error (.notConfigured
        "https service must be configured with this.setupInstance()") ∧
      deleteVerb none url p o = .error (.notConfigured
        "https service must be configured with this.setupInstance()") :=
  fun _ _ _ => ⟨rfl, rfl, rfl, rfl, rfl⟩

/-- C3: failure classification of `request`: if the timer wins the race
the error has the "Request timeout" prefix with status, headers and body
all undefined; if the transport raises an exception whose message
contains "timeout" the error also has the "Request timeout" prefix; any
other exception yields the "Request exception" prefix. -/
theorem claim_C3_failure_classification :
    ∀ (st : HttpsState) (p : HttpsRequestParams) (msg1 msg2 : String),
      jsIncludes msg1 "timeout" = true →
      jsIncludes msg2 "timeout" = false →
      request (some st) p .timedOut = .error (.normalized
        { message := "Request timeout" ++ ": " ++ methodUrlOf (rawOf st p)
          config := rawOf st p
          status := none, headers := none, data := none }) ∧
      request (some st) p (.exception msg1) = .error (.normalized
        { message := "Request timeout" ++ ": " ++ methodUrlOf (rawOf st p)
          config := rawOf st p
          status := none, headers := none, data := none }) ∧
      request (some st) p (.exception msg2) = .error (.normalized
        { message := "Request exception" ++ ": " ++ methodUrlOf (rawOf st p)
          config := rawOf st p
          status := none, headers := none, data := none }) := by
  intro st p msg1 msg2 h1 h2
  refine ⟨rfl, ?_, ?_⟩
  · simp only [request]
    rw [h1]
    simp
  · simp only [request]
    rw [h2]
    simp

/-- C3 witness: a concrete configured instance, a timed-out race, an
exception whose message contains "timeout", and one that does not. -/
theorem claim_C3_failure_classification_witness :
    request (some (setupInstance "UA" 5000 { })) { url := "/a" }
        .timedOut =
      .error (.normalized
        { message := "Request timeout" ++ ": " ++
            methodUrlOf (rawOf (setupInstance "UA" 5000 { }) { url := "/a" })
          config := rawOf (setupInstance "UA" 5000 { }) { url := "/a" }
          status := none, headers := none, data := none }) ∧
    request (some (setupInstance "UA" 5000 { })) { url := "/a" }
        (.exception "socket timeout reached") =
      .error (.normalized
        { message := "Request timeout" ++ ": " ++
            methodUrlOf (rawOf (setupInstance "UA" 5000 { }) { url := "/a" })
          config := rawOf (setupInstance "UA" 5000 { }) { url := "/a" }
          status := none, headers := none, data := none }) ∧
    request (some (setupInstance "UA" 5000 { })) { url := "/a" }
        (.exception "connection reset") =
      .error (.normalized
        { message := "Request exception" ++ ": " ++
            methodUrlOf (rawOf (setupInstance "UA" 5000 { }) { url := "/a" })
          config := rawOf (setupInstance "UA" 5000 { }) { url := "/a" }
          status := none, headers := none, data := none }) :=
  claim_C3_failure_classification (setupInstance "UA" 5000 { })
    { url := "/a" } "socket timeout reached" "connection reset"
    (by decide) (by decide)

/-- C6: when no validator is supplied at setup, the stored default
validator is `status < 400`; and with no per-call validator a transport
response with status 404 makes `request` fail with the "Request failed"
prefix, the error carrying the response status, headers and body. -/
theorem claim_C6_default_validator_404 :
    ∀ (ua : String) (t : Nat) (opts : HttpsServiceOptions)
      (p : HttpsRequestParams) (h : Obj String) (b : JsData),
      opts.defaultValidator = none →
      p.validateStatus = none →
      (setupInstance ua t opts).defaultValidator =
        (fun s => decide (s < 400)) ∧
      request (some (setupInstance ua t opts)) p (.response 404 h b) =
        .error (.normalized
          { message := "Request failed" ++ ": " ++
              methodUrlOf (rawOf (setupInstance ua t opts) p)
            config := rawOf (setupInstance ua t opts) p
            status := some 404, headers := some h, data := some b }) := by
  intro ua t opts p h b hopts hp
  have hval : (setupInstance ua t opts).defaultValidator =
      (fun s => decide (s < 400)) := by
    unfold setupInstance
    rw [hopts]
  refine ⟨hval, ?_⟩
  simp only [request, transformParams_validateStatus, rawOf]
  rw [hp]
  simp [hval]

/-- C6 witness: default setup, no per-call validator, 404 response. -/
theorem claim_C6_default_validator_404_witness :
    (setupInstance "UA" 5000 { }).defaultValidator =
      (fun s => decide (s < 400)) ∧
    request (some (setupInstance "UA" 5000 { })) { url := "/a" }
        (.response 404 [("x", "y")] (.obj [("err", "nf")])) =
      .error (.normalized
        { message := "Request failed" ++ ": " ++
            methodUrlOf (rawOf (setupInstance "UA" 5000 { }) { url := "/a" })
          config := rawOf (setupInstance "UA" 5000 { }) { url := "/a" }
          status := some 404, headers := some [("x", "y")]
          data := some (.obj [("err", "nf")]) }) :=
  claim_C6_default_validator_404 "UA" 5000 { } { url := "/a" }
    [("x", "y")] (.obj [("err", "nf")]) rfl rfl

/-- C2 (amended): on every failing `request` call the normalized error
carries, as its request snapshot (`config`), the raw pre-composition
descriptor — the caller descriptor after timeout defaulting but before
`transformParams` ran. -/
theorem claim_C2_snapshot_is_raw_descriptor :
    ∀ (st : HttpsState) (p : HttpsRequestParams) (o : TransportOutcome)
      (pay : HttpsErrorPayload),
      request (some st) p o = .error (.normalized pay) →
      pay.config = rawOf st p := by
  intro st p o pay h
  cases o with
  | timedOut =>
    simp only [request, Except.error.injEq, HttpsError.normalized.injEq] at h
    subst h
    rfl
  | exception msg =>
    simp only [request, Except.error.injEq, HttpsError.normalized.injEq] at h
    subst h
    rfl
  | response stc hd bd =>
    simp only [request] at h
    split at h
    · simp only [Except.error.injEq, HttpsError.normalized.injEq] at h
      subst h
      rfl
    · split at h <;> simp at h

/-- C2 counterexample: with base URL `https://api.test` and relative
url `/users`, a failing call raises an error whose snapshot url is the
pre-composition `/users`, while the composed (post-`transformParams`)
url is `https://api.test/users` — so the snapshot does not equal the
descriptor after composition. -/
theorem claim_C2_counterexample :
    ((errorPayloadOf (request (some stC2) pC2
        (.response 500 [] (.obj [])))).map
      (fun pay => pay.config.url)) = some "/users" ∧
    (transformParams stC2 (rawOf stC2 pC2)).url = "https://api.test/users" ∧
    ("/users" : String) ≠ "https://api.test/users" := by
  refine ⟨rfl, by decide, by decide⟩

/-- C2 witness for the amended claim: the same concrete failing call,
whose snapshot equals the raw descriptor with the defaulted timeout. -/
theorem claim_C2_snapshot_is_raw_descriptor_witness :
    ((errorPayloadOf (request (some stC2) pC2
        (.response 500 [] (.obj [])))).map (fun pay => pay.config)) =
      some (rawOf stC2 pC2) := by
  have hpay : request (some stC2) pC2 (.response 500 [] (.obj [])) =
      .error (.normalized payC2) := rfl
  rw [hpay]
  show some payC2.config = some (rawOf stC2 pC2)
  rw [claim_C2_snapshot_is_raw_descriptor stC2 pC2 _ payC2 hpay]

/-- C4: with `baseUrl = B` (nonempty) and `url = U`, the composed URL is
exactly `B ++ U` (no separator normalization), and the replacement keys
are then folded over that concatenation in insertion order, each
occurrence of `:<key>` (anywhere in base or relative part) replaced by
the percent-encoded value; a key whose marker does not occur in the URL
leaves it unchanged. -/
theorem claim_C4_url_composition :
    (∀ (st : HttpsState) (p : HttpsRequestParams) (B : String)
        (reps : List (String × String)),
      st.baseUrl = some B → B ≠ "" → p.replacements = some reps →
      (transformParams st p).url =
        reps.foldl
          (fun u kv => jsReplaceAll u (":" ++ kv.1) (encodeURIComponent kv.2))
          (B ++ p.url)) ∧
    (∀ (u k v : String), jsIncludes u (":" ++ k) = false →
      jsReplaceAll u (":" ++ k) (encodeURIComponent v) = u) := by
  constructor
  · intro st p B reps hB hBne hreps
    unfold transformParams
    rw [applyReplacements_url]
    have hrep2 : (applyFormEncoding
        (mergeBases st (ensureHeaders p))).replacements = some reps := by
      rw [(applyFormEncoding_fields _).2.1, (mergeBases_stable _ _).1,
        (ensureHeaders_fields _).2.2.2.2.2.1, hreps]
    have hurl : (applyFormEncoding
        (mergeBases st (ensureHeaders p))).url = B ++ p.url := by
      rw [(applyFormEncoding_fields _).1, mergeBases_url,
        (ensureHeaders_fields _).1, hB]
      simp [jsStrTruthy, hBne]
    simp [hrep2, hurl]
  · intro u k v h
    exact jsReplaceAll_eq_of_not_includes _ _ _ h

/-- C4 witness: base `https://h`, url `/u/:id`, replacement
`id ↦ "a b"` composes to `https://h/u/a%20b`; a marker `:missing`
absent from `/plain` leaves it unchanged. -/
theorem claim_C4_url_composition_witness :
    (transformParams
        (setupInstance "UA" 1 { baseUrl := some "https://h" })
        { url := "/u/:id", replacements := some [("id", "a b")] }).url =
      [("id", "a b")].foldl
        (fun u kv => jsReplaceAll u (":" ++ kv.1) (encodeURIComponent kv.2))
        ("https://h" ++ "/u/:id") ∧
    (transformParams
        (setupInstance "UA" 1 { baseUrl := some "https://h" })
        { url := "/u/:id", replacements := some [("id", "a b")] }).url =
      "https://h/u/a%20b" ∧
    jsReplaceAll "/plain" (":" ++ "missing") (encodeURIComponent "x") =
      "/plain" := by
  refine ⟨?_, by decide, ?_⟩
  · exact claim_C4_url_composition.1
      (setupInstance "UA" 1 { baseUrl := some "https://h" })
      { url := "/u/:id", replacements := some [("id", "a b")] }
      "https://h" [("id", "a b")] rfl (by decide) rfl
  · exact claim_C4_url_composition.2 "/plain" "missing" "x" (by decide)

/-- C5: whenever the descriptor carries a `form`, the effective body is
the URL-encoded serialization of the (base-data-merged) form map, and
the `content-type` header is forced to
`application/x-www-form-urlencoded`, overriding any caller- or
base-supplied value at that key. -/
theorem claim_C5_form_encoding :
    ∀ (st : HttpsState) (p : HttpsRequestParams) (f : Obj String),
      p.form = some f →
      objGet ((transformParams st p).headers.getD []) "content-type" =
        some "application/x-www-form-urlencoded" ∧
      (transformParams st p).data = some (.str (qsStringify
        (match st.baseData with
         | some base => objMerge base f
         | none => f))) := by
  intro st p f hf
  have hform : (mergeBases st (ensureHeaders p)).form =
      match st.baseData with
      | some base => some (objMerge base f)
      | none => some f := by
    rw [mergeBases_form, (ensureHeaders_fields _).2.2.2.1, hf]
    cases st.baseData <;> rfl
  constructor
  · unfold transformParams
    rw [(applyReplacements_fields _).1, applyFormEncoding_headers, hform]
    cases st.baseData <;> simp [objGet_objSet_self]
  · unfold transformParams
    rw [(applyReplacements_fields _).2.1, applyFormEncoding_data, hform]
    cases st.baseData <;> rfl

/-- C5 witness: caller-supplied `content-type` is overridden, the body
is the URL-encoded base-merged form. -/
theorem claim_C5_form_encoding_witness :
    objGet ((transformParams
        (setupInstance "UA" 1 { baseData := some [("k", "v")] })
        { url := "/a", headers := some [("content-type", "application/json")]
          form := some [("f", "x y")] }).headers.getD []) "content-type" =
      some "application/x-www-form-urlencoded" ∧
    (transformParams
        (setupInstance "UA" 1 { baseData := some [("k", "v")] })
        { url := "/a", headers := some [("content-type", "application/json")]
          form := some [("f", "x y")] }).data =
      some (.str (qsStringify (objMerge [("k", "v")] [("f", "x y")]))) :=
  claim_C5_form_encoding
    (setupInstance "UA" 1 { baseData := some [("k", "v")] })
    { url := "/a", headers := some [("content-type", "application/json")]
      form := some [("f", "x y")] }
    [("f", "x y")] rfl

/-- C7: base merging semantics of composition: headers are the shallow
merge of `baseHeaders` with descriptor headers (descriptor wins on
collision — the `objMerge` characterization lemmas); when `baseData` is
set it is shallow-merged independently into each of data, form and
query that is present, and absent channels stay absent. -/
theorem claim_C7_base_merging :
    ∀ (st : HttpsState) (p : HttpsRequestParams),
      (p.form = none →
        (transformParams st p).headers =
          some (objMerge st.baseHeaders (p.headers.getD []))) ∧
      (∀ (a b : Obj String) (k : String),
        (objGet b k = none → objGet (objMerge a b) k = objGet a k) ∧
        ((b.map Prod.fst).Nodup → ∀ v, objGet b k = some v →
          objGet (objMerge a b) k = some v)) ∧
      (∀ base, st.baseData = some base →
        (∀ m, p.data = some (.obj m) → p.form = none →
          (transformParams st p).data = some (.obj (objMerge base m))) ∧
        (∀ f, p.form = some f →
          (transformParams st p).form = some (objMerge base f)) ∧
        (∀ q, p.params = some q →
          (transformParams st p).params = some (objMerge base q))) ∧
      (p.data = none → p.form = none → (transformParams st p).data = none) ∧
      (p.form = none → (transformParams st p).form = none) ∧
      (p.params = none → (transformParams st p).params = none) := by
  intro st p
  have hmbf : ∀ (hf : p.form = none), (mergeBases st (ensureHeaders p)).form = none := by
    intro hf
    rw [mergeBases_form, (ensureHeaders_fields _).2.2.2.1, hf]
    cases st.baseData <;> rfl
  refine ⟨?_, ?_, ?_, ?_, ?_, ?_⟩
  · intro hf
    unfold transformParams
    rw [(applyReplacements_fields _).1, applyFormEncoding_headers, hmbf hf,
      mergeBases_headers, (ensureHeaders_fields _).2.1]
    simp
  · intro a b k
    exact ⟨objGet_objMerge_of_none a b k,
      fun hnd v hv => objGet_objMerge_of_some a b k v hnd hv⟩
  · intro base hbase
    refine ⟨?_, ?_, ?_⟩
    · intro m hm hf
      unfold transformParams
      rw [(applyReplacements_fields _).2.1, applyFormEncoding_data, hmbf hf,
        mergeBases_data, (ensureHeaders_fields _).2.2.1, hbase, hm]
      simp [jsDataTruthy, jsDataToObj]
    · intro f hf
      unfold transformParams
      rw [(applyReplacements_fields _).2.2.1,
        (applyFormEncoding_fields _).2.2.1, mergeBases_form,
        (ensureHeaders_fields _).2.2.2.1, hbase, hf]
    · intro q hq
      unfold transformParams
      rw [(applyReplacements_fields _).2.2.2.1,
        (applyFormEncoding_fields _).2.2.2.1, mergeBases_query,
        (ensureHeaders_fields _).2.2.2.2.1, hbase, hq]
  · intro hd hf
    unfold transformParams
    rw [(applyReplacements_fields _).2.1, applyFormEncoding_data, hmbf hf,
      mergeBases_data, (ensureHeaders_fields _).2.2.1, hd]
    cases st.baseData <;> simp [jsDataTruthy]
  · intro hf
    unfold transformParams
    rw [(applyReplacements_fields _).2.2.1,
      (applyFormEncoding_fields _).2.2.1, hmbf hf]
  · intro hq
    unfold transformParams
    rw [(applyReplacements_fields _).2.2.2.1,
      (applyFormEncoding_fields _).2.2.2.1, mergeBases_query,
      (ensureHeaders_fields _).2.2.2.2.1, hq]
    cases st.baseData <;> rfl

/-- C7 witness: concrete merges — descriptor header wins over base
header, base data is merged into present data and query, and the absent
form channel stays absent. -/
theorem claim_C7_base_merging_witness :
    (transformParams
        (setupInstance "UA" 1
          { baseHeaders := some [("h", "base"), ("b", "1")]
            baseData := some [("k", "v")] })
        { url := "/a", headers := some [("h", "mine")]
          data := some (.obj [("d", "2")]), params := some [("q", "3")] }
        ).headers =
      some (objMerge [("h", "base"), ("b", "1")] [("h", "mine")]) ∧
    objGet (objMerge [("h", "base"), ("b", "1")] [("h", "mine")]) "h" =
      some "mine" ∧
    objGet (objMerge [("h", "base"), ("b", "1")] [("h", "mine")]) "b" =
      some "1" ∧
    (transformParams
        (setupInstance "UA" 1
          { baseHeaders := some [("h", "base"), ("b", "1")]
            baseData := some [("k", "v")] })
        { url := "/a", headers := some [("h", "mine")]
          data := some (.obj [("d", "2")]), params := some [("q", "3")] }
        ).data = some (.obj (objMerge [("k", "v")] [("d", "2")])) ∧
    (transformParams
        (setupInstance "UA" 1
          { baseHeaders := some [("h", "base"), ("b", "1")]
            baseData := some [("k", "v")] })
        { url := "/a", headers := some [("h", "mine")]
          data := some (.obj [("d", "2")]), params := some [("q", "3")] }
        ).params = some (objMerge [("k", "v")] [("q", "3")]) ∧
    (transformParams
        (setupInstance "UA" 1
          { baseHeaders := some [("h", "base"), ("b", "1")]
            baseData := some [("k", "v")] })
        { url := "/a", headers := some [("h", "mine")]
          data := some (.obj [("d", "2")]), params := some [("q", "3")] }
        ).form = none := by
  have h := claim_C7_base_merging
    (setupInstance "UA" 1
      { baseHeaders := some [("h", "base"), ("b", "1")]
        baseData := some [("k", "v")] })
    { url := "/a", headers := some [("h", "mine")]
      data := some (.obj [("d", "2")]), params := some [("q", "3")] }
  refine ⟨h.1 rfl, ?_, ?_, ?_, ?_, ?_⟩
  · exact (h.2.1 [("h", "base"), ("b", "1")] [("h", "mine")] "h").2
      (by decide) "mine" (by decide)
  · exact (h.2.1 [("h", "base"), ("b", "1")] [("h", "mine")] "b").1
      (by decide)
  · exact (h.2.2.1 [("k", "v")] rfl).1 [("d", "2")] rfl rfl
  · exact (h.2.2.1 [("k", "v")] rfl).2.2 [("q", "3")] rfl
  · exact h.2.2.2.2.1 rfl

/-- Looking up the user-agent header after composition falls through to
the instance base headers when the descriptor does not set it. -/
theorem transformParams_userAgent (st : HttpsState) (d : HttpsRequestParams)
    (h : objGet (d.headers.getD []) "user-agent" = none) :
    objGet ((transformParams st d).headers.getD []) "user-agent" =
      objGet st.baseHeaders "user-agent" := by
  unfold transformParams
  rw [(applyReplacements_fields _).1, applyFormEncoding_headers]
  have hmh : (mergeBases st (ensureHeaders d)).headers =
      some (objMerge st.baseHeaders (d.headers.getD [])) := by
    rw [mergeBases_headers, (ensureHeaders_fields _).2.1]
    simp
  cases hf : (mergeBases st (ensureHeaders d)).form with
  | none =>
    rw [hmh]
    simp [objGet_objMerge_of_none _ _ _ h]
  | some f =>
    rw [hmh]
    simp only [Option.getD_some]
    rw [objGet_objSet_ne _ _ _ _ (by decide)]
    exact objGet_objMerge_of_none _ _ _ h

/-- C9: composition is deterministic — two calls on the same configured
state with the same descriptor give the same ResolvedRequest — and the
randomized user-agent is drawn once at `setupInstance` (it is an input
of setup, not of composition): every call on the same state carries the
same setup-time user-agent header. -/
theorem claim_C9_composition_deterministic :
    ∀ (ua : String) (t : Nat) (opts : HttpsServiceOptions)
      (d1 d2 : HttpsRequestParams),
      opts.randomizeUserAgent = true →
      objGet (d1.headers.getD []) "user-agent" = none →
      objGet (d2.headers.getD []) "user-agent" = none →
      transformParams (setupInstance ua t opts) d1 =
        transformParams (setupInstance ua t opts) d1 ∧
      objGet ((transformParams (setupInstance ua t opts) d1).headers.getD [])
          "user-agent" = some ua ∧
      objGet ((transformParams (setupInstance ua t opts) d1).headers.getD [])
          "user-agent" =
        objGet ((transformParams (setupInstance ua t opts) d2).headers.getD [])
          "user-agent" := by
  intro ua t opts d1 d2 hrand h1 h2
  have hbase : objGet (setupInstance ua t opts).baseHeaders "user-agent" =
      some ua := by
    unfold setupInstance
    rw [hrand]
    simp [objGet_objSet_self]
  refine ⟨rfl, ?_, ?_⟩
  · rw [transformParams_userAgent _ _ h1, hbase]
  · rw [transformParams_userAgent _ _ h1, transformParams_userAgent _ _ h2]

/-- C9 witness: two different descriptors on the same configured state
both carry the setup-time user-agent. -/
theorem claim_C9_composition_deterministic_witness :
    transformParams (setupInstance "agent-7" 1 { randomizeUserAgent := true })
        { url := "/a" } =
      transformParams (setupInstance "agent-7" 1 { randomizeUserAgent := true })
        { url := "/a" } ∧
    objGet ((transformParams
        (setupInstance "agent-7" 1 { randomizeUserAgent := true })
        { url := "/a" }).headers.getD []) "user-agent" = some "agent-7" ∧
    objGet ((transformParams
        (setupInstance "agent-7" 1 { randomizeUserAgent := true })
        { url := "/a" }).headers.getD []) "user-agent" =
      objGet ((transformParams
        (setupInstance "agent-7" 1 { randomizeUserAgent := true })
        { url := "/b", headers := some [("x", "1")] }).headers.getD [])
        "user-agent" :=
  claim_C9_composition_deterministic "agent-7" 1 { randomizeUserAgent := true }
    { url := "/a" } { url := "/b", headers := some [("x", "1")] }
    rfl rfl rfl

end NestjsServerless
